import Mathlib

/-!
Shallow embedding of the maintenance-ticket backend (src/service.py,
src/router.py, src/schemas.py) and proofs about it.

Strings are Lean `String`s; timestamps are `Int` epoch seconds; the
database session is an explicit `DbState` record threaded through each
operation.  SQL statements are translated clause by clause into pure
functions on `DbState`; the `try/except` fallback and rollback logic is
made explicit with boolean failure oracles (a query either raises or
does not, and which one raises is a parameter of the embedded
operation).
-/

/-! ### Generic list helpers (insertion sort, membership-preserving) -/

def insOrd {α : Type} (le : α → α → Bool) (a : α) : List α → List α
  | [] => [a]
  | b :: l => if le a b then a :: b :: l else b :: insOrd le a l

def sortByOrd {α : Type} (le : α → α → Bool) : List α → List α
  | [] => []
  | a :: l => insOrd le a (sortByOrd le l)

theorem mem_insOrd {α : Type} (le : α → α → Bool) (a x : α) (l : List α) :
    x ∈ insOrd le a l ↔ x = a ∨ x ∈ l := by
  induction l with
  | nil => simp [insOrd]
  | cons b t ih =>
    simp only [insOrd]
    split
    · simp
    · simp only [List.mem_cons, ih]
      tauto

theorem mem_sortByOrd {α : Type} (le : α → α → Bool) (x : α) (l : List α) :
    x ∈ sortByOrd le l ↔ x ∈ l := by
  induction l with
  | nil => simp [sortByOrd]
  | cons b t ih => simp [sortByOrd, mem_insOrd, ih]

/-! ### Character/string helpers (ASCII case folding, Python strip) -/

/-- ASCII lower-casing of one character, as SQL `lower` does on ASCII. -/
def lowerChar (c : Char) : Char :=
  if 65 ≤ c.toNat ∧ c.toNat ≤ 90 then Char.ofNat (c.toNat + 32) else c

def lowerList (l : List Char) : List Char := l.map lowerChar

/-- Whitespace set recognised by Python `str.strip()` (ASCII part). -/
def isPySpace (c : Char) : Bool :=
  c = ' ' || c = '\t' || c = '\n' || c = '\r' || c = '\x0b' || c = '\x0c'

/-- Python `str.strip()` on the character list level. -/
def pyStripList (l : List Char) : List Char :=
  ((l.dropWhile isPySpace).reverse.dropWhile isPySpace).reverse

/-- Python `str.strip()`. -/
def pyStrip (s : String) : String := String.mk (pyStripList s.toList)

/-- Predicate `beginsWith n h`: `n` is a leading run of `h`. -/
def beginsWith : List Char → List Char → Bool
  | [], _ => true
  | _ :: _, [] => false
  | a :: n, b :: h => a == b && beginsWith n h

/-- Predicate `substrOf n h`: `n` occurs contiguously inside `h`. -/
def substrOf (n : List Char) : List Char → Bool
  | [] => beginsWith n []
  | c :: h => beginsWith n (c :: h) || substrOf n h

/-- Case-insensitive substring containment, the plain-language reading of
the spec's "matched case-insensitively as a substring". -/
def containsCI (needle hay : String) : Bool :=
  substrOf (lowerList needle.toList) (lowerList hay.toList)

/-! ### SQL `LIKE` pattern matching

`likeMatch p s` is PostgreSQL `s LIKE p` with the default escape
character backslash: `%` matches any sequence, `_` one character, and a
backslash forces the following pattern character to be literal.  A
pattern ending in a lone backslash matches nothing (PostgreSQL raises an
error there; no pattern built by the source ends in a backslash). -/

/-- Helper `likeMatchSfx f s`: does `f` accept some suffix of `s` (including `s`
itself and the empty suffix)?  This is what a leading `%` leaves to do. -/
def likeMatchSfx (f : List Char → Bool) : List Char → Bool
  | [] => f []
  | d :: s => f (d :: s) || likeMatchSfx f s

def likeMatch : List Char → List Char → Bool
  | [], [] => true
  | [], _ :: _ => false
  | '%' :: p, s => likeMatchSfx (fun s' => likeMatch p s') s
  | '_' :: _, [] => false
  | '_' :: p, _ :: s' => likeMatch p s'
  | '\\' :: c2 :: p', d :: s' => (c2 == d) && likeMatch p' s'
  | '\\' :: _, _ => false
  | _ :: _, [] => false
  | c :: p, d :: s' => (c == d) && likeMatch p s'

/-- PostgreSQL `ILIKE`: case-insensitive `LIKE` (ASCII folding). -/
def ilike (s p : String) : Bool :=
  likeMatch (lowerList p.toList) (lowerList s.toList)

/-! ### PostgreSQL string functions used by `create` -/

/-- PostgreSQL `lpad(s, n, fill)`: pads on the left to length `n`, and
TRUNCATES `s` to its first `n` characters when it is already longer. -/
def pgLpad (s : String) (n : Nat) (fill : Char) : String :=
  if s.length ≥ n then String.mk (s.toList.take n)
  else String.mk (List.replicate (n - s.length) fill) ++ s

/-- PostgreSQL `to_char(ts, 'YYYY')` on a year number: the decimal
digits, left-padded with zeros to at least four characters. -/
def pgToCharYYYY (y : Int) : String :=
  let s := toString y.toNat
  String.mk (List.replicate (4 - s.length) '0') ++ s

/-- The spec's reading of "id zero-padded to 6 digits": pad when short,
keep the full decimal representation when longer (no truncation). -/
def specZeroPad6 (n : Nat) : String :=
  let s := toString n
  String.mk (List.replicate (6 - s.length) '0') ++ s

/-! ### Civil-calendar arithmetic (proleptic Gregorian, epoch 1970-01-01)

Used to interpret `datetime(year, 1, 1, tzinfo=timezone(timedelta(hours=9)))`
and `now() AT TIME ZONE 'Asia/Seoul'` as instants / years.  The two
functions are the standard era-based day-count algorithms. -/

def daysFromCivil (y m d : Int) : Int :=
  let y' := if m ≤ 2 then y - 1 else y
  let era := Int.fdiv y' 400
  let yoe := y' - era * 400
  let mp := Int.emod (m + 9) 12
  let doy := (153 * mp + 2) / 5 + d - 1
  let doe := yoe * 365 + yoe / 4 - yoe / 100 + doy
  era * 146097 + doe - 719468

def civilYearFromDays (z : Int) : Int :=
  let z' := z + 719468
  let era := Int.fdiv z' 146097
  let doe := z' - era * 146097
  let yoe := (doe - doe / 1460 + doe / 36524 - doe / 146096) / 365
  let y := yoe + era * 400
  let doy := doe - (365 * yoe + yoe / 4 - yoe / 100)
  let mp := (5 * doy + 2) / 153
  let m := if mp < 10 then mp + 3 else mp - 9
  if m ≤ 2 then y + 1 else y

/-- Seconds offset of the fixed UTC+9 zone (`timezone(timedelta(hours=9))`,
and `Asia/Seoul` for the modern dates this system handles). -/
def kstOffsetSec : Int := 9 * 3600

/-- Epoch second of `Jan 1 00:00:00` of `year` in the fixed UTC+9 offset:
the instant denoted by `datetime(year, 1, 1, tzinfo=_KST)`. -/
def kstYearStartSec (year : Int) : Int :=
  daysFromCivil year 1 1 * 86400 - kstOffsetSec

/-- The civil year, in the fixed UTC+9 offset, containing instant `t`
(epoch seconds): `to_char(t AT TIME ZONE 'Asia/Seoul', 'YYYY')`'s year. -/
def kstYearOf (t : Int) : Int :=
  civilYearFromDays (Int.fdiv (t + kstOffsetSec) 86400)

example : kstYearStartSec 2025 = 1735657200 := by decide
example : kstYearStartSec 2026 = 1767193200 := by decide
example : kstYearOf 1735657200 = 2025 := by decide
example : kstYearOf (1735657200 - 1) = 2024 := by decide

/-! ### Data model (src/schemas.py and the SQL schema used by src/service.py) -/

inductive TicketStatus
  | OPEN
  | IN_PROGRESS
  | WAITING
  | CLOSED
  deriving DecidableEq

/-- A row of `public.maintenance_tickets`.  The attachment path is kept as
an absolute path split into components (what `str(file_path)` denotes). -/
structure Ticket where
  id : Nat
  ticket_no : String
  client_id : Option Nat
  title : String
  status : TicketStatus
  priority : String
  requested_at : Int
  created_at : Int
  updated_at : Int
  closed_at : Option Int
  requester_name : Option String
  requester_org : Option String
  requester_phone : Option String
  request_content : Option String
  resolution_content : Option String
  attachment_name : Option String
  attachment_path : Option (List String)
  attachment_mime : Option String
  attachment_size : Option Nat
  created_by_user_id : Option Nat
  deriving DecidableEq

/-- A row of `public.maintenance_ticket_assignees` (`rowId` is its `id`). -/
structure AssigneeRow where
  rowId : Nat
  ticket_id : Nat
  user_id : Nat
  deriving DecidableEq

/-- A row of `public.users` (the part this module reads). -/
structure UserRow where
  id : Nat
  name : String
  deriving DecidableEq

/-- The database session state: table contents plus the two id sequences. -/
structure DbState where
  tickets : List Ticket
  assignees : List AssigneeRow
  users : List UserRow
  clients : List Nat
  nextId : Nat
  nextAssigneeId : Nat
  deriving DecidableEq

structure MaintenanceListItem where
  id : Nat
  requested_at : String
  title : String
  requester_name : String
  requester_org : String
  created_by_name : String
  deriving DecidableEq

structure MaintenanceCreateIn where
  title : String
  requester_name : String
  requester_org : String
  requester_phone : String
  request_content : String
  deriving DecidableEq

structure AssigneeOut where
  user_id : Nat
  name : String
  deriving DecidableEq

structure MaintenanceDetailOut where
  id : Nat
  title : String
  requested_at : String
  closed_at : Option String
  created_by_user_id : Option Nat
  created_by_name : String
  requester_name : String
  requester_org : String
  requester_phone : String
  request_content : String
  resolution_content : Option String
  assignees : List AssigneeOut
  attachment_name : Option String
  attachment_path : Option (List String)
  attachment_mime : Option String
  attachment_size : Option Nat
  attachment_download_url : Option String
  deriving DecidableEq

structure MaintenanceCompleteIn where
  resolution_content : String
  assignee_user_ids : List Nat
  deriving DecidableEq

/-! ### src/service.py helpers -/

/-- SQL `COALESCE(x, '')`. -/
def coalesce (o : Option String) : String := o.getD ("")

/-- SQL `COALESCE(u.name, '')` after `LEFT JOIN public.users u ON u.id =
t.created_by_user_id`. -/
def createdByName (s : DbState) (t : Ticket) : String :=
  match t.created_by_user_id with
  | none => ""
  | some u => ((s.users.find? (fun r => r.id == u)).map UserRow.name).getD ("")

def _normalize_q (q : Option String) : Option String :=
  match q with
  | none => none
  | some s => let s' := pyStrip s; if s' = "" then none else some s'

/-- Function `_year_range_kst_dt`: the two instants `datetime(year,1,1,tzinfo=_KST)`
and `datetime(year+1,1,1,tzinfo=_KST)`, as epoch seconds. -/
def _year_range_kst_dt (year : Int) : Int × Int :=
  (kstYearStartSec year, kstYearStartSec (year + 1))

/-- Statuses `["CLOSED"] if tab == "completed" else ["OPEN","IN_PROGRESS","WAITING"]`. -/
def statusesFor (tab : String) : List TicketStatus :=
  if tab = "completed" then [.CLOSED] else [.OPEN, .IN_PROGRESS, .WAITING]

/-- Pattern `f"%\x7bqn\x7d%"` of the source, built by string interpolation. -/
def qLike (q : String) : String := "%" ++ q ++ "%"

/-- A projected row of the list query. -/
structure ListRow where
  id : Nat
  requested_at : Int
  title : String
  requester_name : String
  requester_org : String
  created_by_name : String
  deriving DecidableEq

/-- Comparator `ORDER BY t.requested_at DESC, t.id DESC` as a Boolean "may precede". -/
def listOrd (a b : ListRow) : Bool :=
  if a.requested_at = b.requested_at then decide (b.id ≤ a.id)
  else decide (b.requested_at < a.requested_at)

/-- WHERE clause of the joined list query (src/service.py lines 54-62). -/
def joinPred (s : DbState) (year : Int) (tab : String) (qn : Option String)
    (t : Ticket) : Bool :=
  let yr := _year_range_kst_dt year
  decide (yr.1 ≤ t.requested_at) && decide (t.requested_at < yr.2) &&
  (statusesFor tab).contains t.status &&
  (match qn with
   | none => true
   | some q =>
     ilike t.title (qLike q) || ilike (coalesce t.requester_org) (qLike q) ||
     ilike (createdByName s t) (qLike q))

/-- WHERE clause of the fallback list query (src/service.py lines 88-95):
identical except there is no creator-name disjunct. -/
def noJoinPred (year : Int) (tab : String) (qn : Option String)
    (t : Ticket) : Bool :=
  let yr := _year_range_kst_dt year
  decide (yr.1 ≤ t.requested_at) && decide (t.requested_at < yr.2) &&
  (statusesFor tab).contains t.status &&
  (match qn with
   | none => true
   | some q =>
     ilike t.title (qLike q) || ilike (coalesce t.requester_org) (qLike q))

/-- SELECT list of the joined query. -/
def rowOfJoin (s : DbState) (t : Ticket) : ListRow :=
  ⟨t.id, t.requested_at, t.title, coalesce t.requester_name,
   coalesce t.requester_org, createdByName s t⟩

/-- SELECT list of the fallback query (`'' AS created_by_name`). -/
def rowOfNoJoin (t : Ticket) : ListRow :=
  ⟨t.id, t.requested_at, t.title, coalesce t.requester_name,
   coalesce t.requester_org, ""⟩

/-- The joined list query `sql_join`, as rows. -/
def queryListJoin (s : DbState) (year : Int) (tab : String)
    (qn : Option String) : List ListRow :=
  sortByOrd listOrd ((s.tickets.filter (joinPred s year tab qn)).map (rowOfJoin s))

/-- The fallback list query `sql_nojoin`, as rows. -/
def queryListNoJoin (s : DbState) (year : Int) (tab : String)
    (qn : Option String) : List ListRow :=
  sortByOrd listOrd ((s.tickets.filter (noJoinPred year tab qn)).map rowOfNoJoin)

/-- Row-to-schema mapping at src/service.py lines 101-111. -/
def itemOfRow (r : ListRow) : MaintenanceListItem :=
  ⟨r.id, toString r.requested_at, r.title, r.requester_name,
   r.requester_org, r.created_by_name⟩

/-! ### src/service.py operations -/

/-- Embedded `MaintenanceService.list`.  `joinRaises` says whether executing the
joined query raises (the `except Exception` at line 77), `fallbackRaises`
whether the retry also raises; `.error ()` is the exception escaping to
the caller. -/
def MaintenanceService.list (s : DbState) (year : Int) (tab : String)
    (q : Option String) (joinRaises fallbackRaises : Bool) :
    Except Unit (List MaintenanceListItem) :=
  let qn := _normalize_q q
  if joinRaises then
    if fallbackRaises then .error ()
    else .ok ((queryListNoJoin s year tab qn).map itemOfRow)
  else .ok ((queryListJoin s year tab qn).map itemOfRow)

/-- Python truthiness of an optional string (`None` and `""` are falsy). -/
def truthyStr (o : Option String) : Bool :=
  match o with
  | none => false
  | some s => !(s == "")

/-- Python truthiness of an optional path value. -/
def truthyPath (o : Option (List String)) : Bool :=
  match o with
  | none => false
  | some p => !p.isEmpty

/-- Embedded `MaintenanceService.get_detail` (join queries succeeding).  Returns
`none` exactly when no ticket row has the id. -/
def MaintenanceService.get_detail (s : DbState) (ticket_id : Nat) :
    Option MaintenanceDetailOut :=
  match s.tickets.find? (fun t => t.id == ticket_id) with
  | none => none
  | some t =>
    let rows := sortByOrd (fun a b => decide (a.rowId ≤ b.rowId))
      (s.assignees.filter (fun a => a.ticket_id == ticket_id))
    let assignees := rows.map (fun a =>
      AssigneeOut.mk a.user_id
        (((s.users.find? (fun u => u.id == a.user_id)).map UserRow.name).getD ("")))
    some
      { id := t.id
        title := t.title
        requested_at := toString t.requested_at
        closed_at := t.closed_at.map toString
        created_by_user_id := t.created_by_user_id
        created_by_name := createdByName s t
        requester_name := coalesce t.requester_name
        requester_org := coalesce t.requester_org
        requester_phone := coalesce t.requester_phone
        request_content := coalesce t.request_content
        resolution_content := t.resolution_content
        assignees := assignees
        attachment_name := t.attachment_name
        attachment_path := none
        attachment_mime := t.attachment_mime
        attachment_size := t.attachment_size
        attachment_download_url :=
          if truthyStr t.attachment_name && truthyPath t.attachment_path then
            some ("/api/maintenance/" ++ toString t.id ++ "/attachment/download")
          else none }

inductive CreateResult
  | valueError (msg : String)
  | ok (d : Option MaintenanceDetailOut)
  deriving DecidableEq

/-- SQL `SELECT id FROM public.clients ORDER BY id ASC LIMIT 1`. -/
def minClient : List Nat → Option Nat
  | [] => none
  | c :: l => some (l.foldl min c)

/-- Embedded `MaintenanceService.create`.  `now` is the instant of the insert's
`now()`.  The id sequence is read (`nextval`) before the insert builds
`ticket_no`; a sequence advance is not rolled back on failure. -/
def MaintenanceService.create (s : DbState) (created_by_user_id : Option Nat)
    (payload : MaintenanceCreateIn) (now : Int) : DbState × CreateResult :=
  if pyStrip payload.title = "" then
    (s, .valueError ("유지보수명은 필수입니다."))
  else if pyStrip payload.request_content = "" then
    (s, .valueError ("요청 내용은 필수입니다."))
  else
    let newId := s.nextId
    let seqAdvanced := { s with nextId := s.nextId + 1 }
    match minClient s.clients with
    | none =>
      -- empty clients table: client_id NULL violates NOT NULL, the insert
      -- raises, the session rolls back and a guidance ValueError is raised
      (seqAdvanced, .valueError ("유지보수 신규등록 실패"))
    | some cid =>
      let t : Ticket :=
        { id := newId
          ticket_no := "MT-" ++ pgToCharYYYY (kstYearOf now) ++ "-" ++
            pgLpad (toString newId) 6 '0'
          client_id := some cid
          title := pyStrip payload.title
          status := .OPEN
          priority := "MID"
          requested_at := now
          created_at := now
          updated_at := now
          closed_at := none
          requester_name := some (pyStrip payload.requester_name)
          requester_org := some (pyStrip payload.requester_org)
          requester_phone := some (pyStrip payload.requester_phone)
          request_content := some (pyStrip payload.request_content)
          resolution_content := none
          attachment_name := none
          attachment_path := none
          attachment_mime := none
          attachment_size := none
          created_by_user_id := created_by_user_id }
      let s' := { seqAdvanced with tickets := seqAdvanced.tickets ++ [t] }
      (s', .ok (MaintenanceService.get_detail s' newId))

inductive CompleteResult
  | valueError (msg : String)
  | notFound
  | ok (d : Option MaintenanceDetailOut)
  | raised
  deriving DecidableEq

/-- SQL `INSERT INTO public.maintenance_ticket_assignees ... ON CONFLICT
(ticket_id, user_id) DO NOTHING` for one (ticket, user) pair. -/
def upsertAssignee (s : DbState) (tid uid : Nat) : DbState :=
  if s.assignees.any (fun a => a.ticket_id == tid && a.user_id == uid) then s
  else
    { s with
      assignees := s.assignees ++ [⟨s.nextAssigneeId, tid, uid⟩]
      nextAssigneeId := s.nextAssigneeId + 1 }

def upsertAssignees (s : DbState) (tid : Nat) (uids : List Nat) : DbState :=
  uids.foldl (fun st u => upsertAssignee st tid u) s

/-- The UPDATE at src/service.py lines 297-309 applied to one row. -/
def closeTicket (t : Ticket) (now : Int) (res : String) : Ticket :=
  { t with
    status := .CLOSED
    closed_at := some now
    updated_at := now
    resolution_content := some res }

/-- State after all writes of `complete` committed. -/
def completeCommitted (s : DbState) (tid : Nat) (res : String)
    (uids : List Nat) (now : Int) : DbState :=
  let s1 := { s with
    tickets := s.tickets.map (fun t => if t.id == tid then closeTicket t now res else t) }
  upsertAssignees s1 tid uids

/-- Embedded `MaintenanceService.complete`.  `failAt` injects a failure: `some 0`
means the existence SELECT raises, `some k` with `1 ≤ k ≤ 1 + |uids| + 1`
means the UPDATE (k = 1), the k-1-th assignee INSERT, or the final commit
raises; the `except` clause rolls the session back and re-raises. -/
def MaintenanceService.complete (s : DbState) (ticket_id : Nat)
    (payload : MaintenanceCompleteIn) (now : Int) (failAt : Option Nat) :
    DbState × CompleteResult :=
  let res := pyStrip payload.resolution_content
  if res = "" then (s, .valueError ("처리 내용은 필수입니다."))
  else if payload.assignee_user_ids.isEmpty then
    (s, .valueError ("처리 직원(참여자)을 1명 이상 선택해 주세요."))
  else if failAt = some 0 then (s, .raised)
  else
    -- `.scalar()` of the existence SELECT; `if not exists:` is falsy for
    -- both None and 0, so a ticket whose id is 0 is treated as absent
    let existsId := ((s.tickets.find? (fun t => t.id == ticket_id)).map Ticket.id).getD 0
    if existsId = 0 then (s, .notFound)
    else
      let nStmts := 2 + payload.assignee_user_ids.length
      let commitPath :=
        let s' := completeCommitted s ticket_id res payload.assignee_user_ids now
        (s', CompleteResult.ok (MaintenanceService.get_detail s' ticket_id))
      match failAt with
      | some k => if 1 ≤ k ∧ k ≤ nStmts then (s, .raised) else commitPath
      | none => commitPath

inductive DeleteResult
  | ok
  | notFound
  | serverError
  deriving DecidableEq

/-! ### src/router.py operations -/

/-- Body of `delete_maintenance` after the `_ensure_admin` guard.
`reportsRowcount = false` models a driver whose delete result carries no
usable `rowcount` (attribute absent or `None`: `getattr(res, "rowcount", 1)`
then yields a non-zero-testing value either way); `raises` injects a
failure of the delete statements, answered by rollback and a 500. -/
def delete_maintenance (s : DbState) (ticket_id : Nat)
    (reportsRowcount : Bool) (raises : Bool) : DbState × DeleteResult :=
  if raises then (s, .serverError)
  else
    let deleted := s.tickets.countP (fun t => t.id == ticket_id)
    let s' := { s with
      assignees := s.assignees.filter (fun a => a.ticket_id != ticket_id)
      tickets := s.tickets.filter (fun t => t.id != ticket_id) }
    -- the commit precedes the rowcount test: the 404 path has committed
    let rowcount : Option Nat := if reportsRowcount then some deleted else none
    if rowcount.getD 1 = 0 then (s', .notFound) else (s', .ok)

/-- Lexical part of `Path.resolve()` on an absolute component list:
eliminate `.` and `..`. -/
def resolveComps (p : List String) : List String :=
  p.foldl
    (fun acc c =>
      if c = "." then acc else if c = ".." then acc.dropLast else acc ++ [c])
    []

inductive DownloadResult
  | noAttachment
  | invalidPath
  | fileMissing
  | file (path : List String) (media_type filename : String)
  deriving DecidableEq

/-- Test of `p.relative_to(root)`: it succeeds exactly when `root`'s components lead
`p`'s. -/
def relativeToOk (root p : List String) : Bool :=
  match root, p with
  | [], _ => true
  | _ :: _, [] => false
  | a :: r, b :: q => a == b && relativeToOk r q

/-- Embedded `download_attachment` (src/router.py lines 151-188).  `fsFiles` is the
set of resolved paths that exist as regular files; `uploads_root` is the
already-resolved upload root. -/
def download_attachment (s : DbState) (fsFiles : List (List String))
    (uploads_root : List String) (ticket_id : Nat) : DownloadResult :=
  match s.tickets.find? (fun t => t.id == ticket_id) with
  | none => .noAttachment
  | some t =>
    match t.attachment_path with
    | none => .noAttachment
    | some raw =>
      if raw.isEmpty then .noAttachment
      else
        let file_path := resolveComps raw
        if relativeToOk uploads_root file_path then
          if fsFiles.contains file_path then
            .file file_path
              (match t.attachment_mime with
               | some m => if m = "" then ("application/octet-stream") else m
               | none => "application/octet-stream")
              (match t.attachment_name with
               | some n => if n = "" then ("attachment") else n
               | none => "attachment")
          else .fileMissing
        else .invalidPath

/-! ### Lemmas about LIKE patterns -/

theorem likeMatchSfx_of_nil {f : List Char → Bool} (h : f [] = true) :
    ∀ s, likeMatchSfx f s = true := by
  intro s
  induction s with
  | nil => simpa [likeMatchSfx] using h
  | cons d s' ih => simp [likeMatchSfx, ih]

theorem likeMatchSfx_congr {f g : List Char → Bool} (h : ∀ s, f s = g s) :
    ∀ s, likeMatchSfx f s = likeMatchSfx g s := by
  intro s
  induction s with
  | nil => simp [likeMatchSfx, h]
  | cons d s' ih => simp [likeMatchSfx, h, ih]

theorem likeMatch_pct (p : List Char) (s : List Char) :
    likeMatch ('%' :: p) s = likeMatchSfx (fun s' => likeMatch p s') s := by
  cases s <;> rfl

/-- A pattern that starts with `%` and matches the empty string matches
every string. -/
theorem likeMatch_pct_total (p : List Char) (h : likeMatch ('%' :: p) [] = true)
    (s : List Char) : likeMatch ('%' :: p) s = true := by
  rw [likeMatch_pct] at h ⊢
  exact likeMatchSfx_of_nil (by simpa [likeMatchSfx] using h) s

theorem qLike_toList (q : String) : (qLike q).toList = '%' :: q.toList ++ ['%'] := by
  show (("%" ++ q ++ "%").data = _)
  rw [String.data_append, String.data_append]
  rfl

theorem lowerChar_pct : lowerChar '%' = '%' := by decide

theorem lowerList_qLike (q : String) :
    lowerList (qLike q).toList = '%' :: lowerList q.toList ++ ['%'] := by
  rw [qLike_toList]
  simp [lowerList, lowerChar_pct]

/-- If `'' ILIKE '%q%'` holds then `f ILIKE '%q%'` holds for every `f`. -/
theorem ilike_total_of_empty (q : String) (h : ilike ("") (qLike q) = true)
    (f : String) : ilike f (qLike q) = true := by
  unfold ilike at h ⊢
  rw [lowerList_qLike] at h ⊢
  exact likeMatch_pct_total _ (by simpa [lowerList] using h) _

/-! ### The fallback list query refines the joined one (claim C4) -/

/-- The spec-side substitution "every creator display name replaced by the
empty string": with no user rows, every `COALESCE(u.name,'')` is `''`. -/
def blankUsers (s : DbState) : DbState := { s with users := [] }

theorem createdByName_blank (s : DbState) (t : Ticket) :
    createdByName (blankUsers s) t = "" := by
  cases h : t.created_by_user_id <;> simp [createdByName, blankUsers, h, List.find?]

theorem rowOfJoin_blank (s : DbState) (t : Ticket) :
    rowOfJoin (blankUsers s) t = rowOfNoJoin t := by
  simp [rowOfJoin, rowOfNoJoin, createdByName_blank]

theorem joinPred_blank (s : DbState) (year : Int) (tab : String)
    (qn : Option String) (t : Ticket) :
    joinPred (blankUsers s) year tab qn t = noJoinPred year tab qn t := by
  cases qn with
  | none => rfl
  | some q =>
    simp only [joinPred, noJoinPred, createdByName_blank]
    cases h : ilike ("") (qLike q) with
    | true =>
      rw [ilike_total_of_empty q h t.title]
      simp
    | false => simp [h]

/-- C4: for every list query input, the fallback (no-join) query equals the
primary joined query with every creator display name substituted by the
empty string (same rows, same order, same fields apart from the blank
creator name); when the joined query raises and the fallback succeeds the
caller still gets a plain `.ok` result (the fallback is not surfaced); an
error reaches the caller exactly when both queries raise. -/
theorem list_fallback_equivalence (s : DbState) (year : Int) (tab : String)
    (q : Option String) (qn : Option String) :
    queryListNoJoin s year tab qn = queryListJoin (blankUsers s) year tab qn ∧
    MaintenanceService.list s year tab q true false =
      .ok ((queryListNoJoin s year tab (_normalize_q q)).map itemOfRow) ∧
    MaintenanceService.list s year tab q true true = .error () ∧
    (∀ fb : Bool, MaintenanceService.list s year tab q false fb =
      .ok ((queryListJoin s year tab (_normalize_q q)).map itemOfRow)) := by
  refine ⟨?_, rfl, rfl, fun fb => rfl⟩
  unfold queryListNoJoin queryListJoin
  have hfilter : s.tickets.filter (noJoinPred year tab qn) =
      (blankUsers s).tickets.filter (joinPred (blankUsers s) year tab qn) := by
    show _ = s.tickets.filter _
    exact (List.filter_congr (fun t _ => joinPred_blank s year tab qn t)).symm
  rw [hfilter]
  congr 1
  exact (List.map_congr_left (fun t _ => rowOfJoin_blank s t)).symm

/-! ### Attachment download path safety (claim C1) -/

/-- C1: for a stored attachment path, the download operation resolves it
and (a) answers `invalidPath` whenever the resolved path is not a
descendant of the upload root — regardless of whether the file exists on
disk, (b) answers `fileMissing` when the path is inside the root but the
file does not exist, and (c) serves a file only when it is inside the root
and exists.  Every outcome is one of the four `DownloadResult`
constructors, i.e. a controlled not-found / invalid-path answer or a
file, never a raw filesystem error. -/
theorem download_path_safety (s : DbState) (fsFiles : List (List String))
    (root : List String) (tid : Nat) (t : Ticket) (raw : List String)
    (hfind : s.tickets.find? (fun t' => t'.id == tid) = some t)
    (hpath : t.attachment_path = some raw) (hne : raw ≠ []) :
    (relativeToOk root (resolveComps raw) = false →
      download_attachment s fsFiles root tid = .invalidPath) ∧
    (relativeToOk root (resolveComps raw) = true →
      resolveComps raw ∉ fsFiles →
      download_attachment s fsFiles root tid = .fileMissing) ∧
    (∀ p m n, download_attachment s fsFiles root tid = .file p m n →
      relativeToOk root p = true ∧ p ∈ fsFiles) := by
  have hemp : raw.isEmpty = false := by
    cases raw with
    | nil => exact absurd rfl hne
    | cons a l => rfl
  unfold download_attachment
  simp only [hfind, hpath, hemp, Bool.false_eq_true, if_false]
  refine ⟨fun h => by simp [h], fun h1 h2 => ?_, fun p m n h => ?_⟩
  · have hc : fsFiles.contains (resolveComps raw) = false := by
      simpa using h2
    simp [h1, hc, h2]
  · by_cases h1 : relativeToOk root (resolveComps raw) = true
    · simp only [h1, if_true] at h
      by_cases hm : resolveComps raw ∈ fsFiles
      · have hc : fsFiles.contains (resolveComps raw) = true := by simpa using hm
        simp only [hc, if_true] at h
        cases h
        exact ⟨h1, hm⟩
      · have hc : fsFiles.contains (resolveComps raw) = false := by simpa using hm
        simp [hc, hm] at h
    · simp [Bool.eq_false_iff.mpr h1] at h

/-! ### Concrete fixtures used by witnesses -/

def egTicket : Ticket :=
  { id := 1
    ticket_no := "MT-2025-000001"
    client_id := some 1
    title := "Server check"
    status := .OPEN
    priority := "MID"
    requested_at := 1735657200
    created_at := 1735657200
    updated_at := 1735657200
    closed_at := none
    requester_name := some ("Hong")
    requester_org := some ("IT Team")
    requester_phone := some ("010-0000-0000")
    request_content := some ("please")
    resolution_content := none
    attachment_name := some ("f.pdf")
    attachment_path := some ["etc", "passwd"]
    attachment_mime := some ("application/pdf")
    attachment_size := some 10
    created_by_user_id := some 7 }

def egDb : DbState :=
  { tickets := [egTicket]
    assignees := []
    users := [⟨7, "Kim"⟩]
    clients := [3, 1]
    nextId := 2
    nextAssigneeId := 1 }

/-- Witness for C1: the stored path `/etc/passwd` lies outside the upload
root `/srv/uploads`, the file exists on disk, and the download still
answers `invalidPath`. -/
theorem download_path_safety_witness :
    download_attachment egDb [["etc", "passwd"]] ["srv", "uploads"] 1 =
      .invalidPath :=
  (download_path_safety egDb [["etc", "passwd"]] ["srv", "uploads"] 1 egTicket
    ["etc", "passwd"] (by decide) (by decide) (by decide)).1 (by decide)

/-! ### Completion validation and not-found (claim C2) -/

/-- C2: `complete` with a resolution text that is empty after trimming, or
with an empty assignee list, answers a validation error and leaves the
state unchanged; with valid input and no ticket of the given id it
answers not-found (the `None` return, not an exception) and leaves the
state unchanged. -/
theorem complete_validation_and_notfound (s : DbState) (tid : Nat)
    (inp : MaintenanceCompleteIn) (now : Int) (failAt : Option Nat) :
    (pyStrip inp.resolution_content = "" →
      MaintenanceService.complete s tid inp now failAt =
        (s, .valueError ("처리 내용은 필수입니다."))) ∧
    (pyStrip inp.resolution_content ≠ "" → inp.assignee_user_ids = [] →
      MaintenanceService.complete s tid inp now failAt =
        (s, .valueError ("처리 직원(참여자)을 1명 이상 선택해 주세요."))) ∧
    (pyStrip inp.resolution_content ≠ "" → inp.assignee_user_ids ≠ [] →
      (∀ t ∈ s.tickets, t.id ≠ tid) →
      MaintenanceService.complete s tid inp now none = (s, .notFound)) := by
  refine ⟨fun h => ?_, fun h1 h2 => ?_, fun h1 h2 h3 => ?_⟩
  · simp [MaintenanceService.complete, h]
  · simp [MaintenanceService.complete, h1, h2]
  · have hfind : s.tickets.find? (fun t => t.id == tid) = none := by
      rw [List.find?_eq_none]
      intro t ht
      simpa using h3 t ht
    have hne : inp.assignee_user_ids.isEmpty = false := by
      cases hl : inp.assignee_user_ids with
      | nil => exact absurd hl h2
      | cons a l => rfl
    simp [MaintenanceService.complete, h1, hne, hfind]

/-- Witness for C2: completing an existing ticket with a blank resolution
text is rejected with the validation error and no state change. -/
theorem complete_validation_witness :
    MaintenanceService.complete egDb 1 ⟨"   ", [7]⟩ 0 none =
      (egDb, .valueError ("처리 내용은 필수입니다.")) :=
  (complete_validation_and_notfound egDb 1 ⟨"   ", [7]⟩ 0 none).1 (by decide)

/-! ### Delete semantics (claims C7 and C10) -/

/-- C7: with a row-count-reporting driver, delete removes the assignee
rows of the id and then the ticket row, as one committed unit (any
statement failure instead rolls everything back and answers a server
error); it reports not-found exactly when no ticket row had the id,
independent of assignee rows; under referential integrity (every assignee
row points at an existing ticket), deleting a nonexistent id leaves both
tables unchanged. -/
theorem delete_semantics (s : DbState) (tid : Nat)
    (hri : ∀ a ∈ s.assignees, ∃ t ∈ s.tickets, t.id = a.ticket_id) :
    (delete_maintenance s tid true false =
      ({ s with
          assignees := s.assignees.filter (fun a => a.ticket_id != tid)
          tickets := s.tickets.filter (fun t => t.id != tid) },
       if s.tickets.any (fun t => t.id == tid) then .ok else .notFound)) ∧
    ((delete_maintenance s tid true false).2 = .notFound ↔
      ∀ t ∈ s.tickets, t.id ≠ tid) ∧
    ((∀ t ∈ s.tickets, t.id ≠ tid) →
      (delete_maintenance s tid true false).1 = s) ∧
    (delete_maintenance s tid true true = (s, .serverError)) := by
  have key : delete_maintenance s tid true false =
      ({ s with
          assignees := s.assignees.filter (fun a => a.ticket_id != tid)
          tickets := s.tickets.filter (fun t => t.id != tid) },
       if s.tickets.countP (fun t => t.id == tid) = 0 then .notFound else .ok) := by
    by_cases hz : s.tickets.countP (fun t => t.id == tid) = 0 <;>
      simp [delete_maintenance, hz]
  have hallne : (s.tickets.countP (fun t => t.id == tid) = 0) →
      ∀ t ∈ s.tickets, t.id ≠ tid := by
    intro hz t ht
    simpa using List.countP_eq_zero.mp hz t ht
  refine ⟨?_, ?_, fun h => ?_, rfl⟩
  · rw [key]
    by_cases hz : s.tickets.countP (fun t => t.id == tid) = 0
    · have hany : s.tickets.any (fun t => t.id == tid) = false := by
        rw [List.any_eq_false]
        intro t ht
        simpa using hallne hz t ht
      rw [if_pos hz, hany]
      rfl
    · have hany : s.tickets.any (fun t => t.id == tid) = true := by
        obtain ⟨t, ht, hp⟩ := List.countP_pos_iff.mp (Nat.pos_of_ne_zero hz)
        exact List.any_eq_true.mpr ⟨t, ht, hp⟩
      rw [if_neg hz, hany]
      rfl
  · rw [key]
    by_cases hz : s.tickets.countP (fun t => t.id == tid) = 0
    · rw [if_pos hz]
      exact iff_of_true rfl (hallne hz)
    · rw [if_neg hz]
      refine iff_of_false (fun hcontra => DeleteResult.noConfusion hcontra) ?_
      intro hall
      exact hz (List.countP_eq_zero.mpr (fun t ht => by simpa using hall t ht))
  · rw [key]
    have h1 : s.tickets.filter (fun t => t.id != tid) = s.tickets := by
      rw [List.filter_eq_self]
      intro t ht
      simpa using h t ht
    have h2 : s.assignees.filter (fun a => a.ticket_id != tid) = s.assignees := by
      rw [List.filter_eq_self]
      intro a ha
      obtain ⟨t, ht, hta⟩ := hri a ha
      have := h t ht
      simp only [bne_iff_ne, ne_eq]
      omega
    show ({ s with
        assignees := s.assignees.filter (fun a => a.ticket_id != tid)
        tickets := s.tickets.filter (fun t => t.id != tid) } : DbState) = s
    rw [h1, h2]

/-- Witness for C7: deleting id 99, absent from the table, leaves the
state unchanged. -/
theorem delete_semantics_witness :
    (delete_maintenance egDb 99 true false).1 = egDb :=
  (delete_semantics egDb 99 (by decide)).2.2.1 (by decide)

/-- C10: when the driver reports no usable row count for the ticket
delete (`getattr(res, "rowcount", 1)` defaulting, or a `None` row count,
which `== 0` rejects), deleting a nonexistent ticket id answers the
success result rather than not-found. -/
theorem delete_no_rowcount_success (s : DbState) (tid : Nat)
    (h : ∀ t ∈ s.tickets, t.id ≠ tid) :
    (delete_maintenance s tid false false).2 = .ok := by
  unfold delete_maintenance
  simp

/-- Witness for C10: id 99 does not exist, yet the result is `.ok`. -/
theorem delete_no_rowcount_success_witness :
    (delete_maintenance egDb 99 false false).2 = .ok :=
  delete_no_rowcount_success egDb 99 (by decide)

/-! ### Assignee upsert idempotence (claim C6) -/

/-- The (ticket, user) pairs recorded in the association table. -/
def assigneePairs (s : DbState) : List (Nat × Nat) :=
  s.assignees.map (fun a => (a.ticket_id, a.user_id))

theorem any_pair_iff (s : DbState) (tid uid : Nat) :
    s.assignees.any (fun a => a.ticket_id == tid && a.user_id == uid) = true ↔
      (tid, uid) ∈ assigneePairs s := by
  rw [List.any_eq_true]
  constructor
  · rintro ⟨a, ha, hp⟩
    simp only [Bool.and_eq_true, beq_iff_eq] at hp
    exact List.mem_map.mpr ⟨a, ha, by simp [hp.1, hp.2]⟩
  · intro h
    obtain ⟨a, ha, hpair⟩ := List.mem_map.mp h
    refine ⟨a, ha, ?_⟩
    have h1 : a.ticket_id = tid := congrArg Prod.fst hpair
    have h2 : a.user_id = uid := congrArg Prod.snd hpair
    simp [h1, h2]

theorem upsertAssignee_of_mem (s : DbState) (tid uid : Nat)
    (h : (tid, uid) ∈ assigneePairs s) : upsertAssignee s tid uid = s := by
  unfold upsertAssignee
  rw [if_pos ((any_pair_iff s tid uid).mpr h)]

theorem assigneePairs_upsertAssignee (s : DbState) (tid uid : Nat) :
    assigneePairs (upsertAssignee s tid uid) =
      if (tid, uid) ∈ assigneePairs s then assigneePairs s
      else assigneePairs s ++ [(tid, uid)] := by
  by_cases hmem : (tid, uid) ∈ assigneePairs s
  · rw [upsertAssignee_of_mem s tid uid hmem, if_pos hmem]
  · rw [if_neg hmem]
    unfold upsertAssignee
    rw [if_neg (fun hc => hmem ((any_pair_iff s tid uid).mp hc))]
    simp [assigneePairs]

theorem nodup_assigneePairs_upsertAssignee (s : DbState) (tid uid : Nat)
    (h : (assigneePairs s).Nodup) :
    (assigneePairs (upsertAssignee s tid uid)).Nodup := by
  rw [assigneePairs_upsertAssignee]
  split
  · exact h
  · rename_i hmem
    rw [List.nodup_append]
    refine ⟨h, List.nodup_singleton _, ?_⟩
    intro p hp hm1
    simp only [List.mem_singleton] at hm1
    subst hm1
    exact hmem hp

theorem nodup_assigneePairs_upsertAssignees (tid : Nat) (uids : List Nat) :
    ∀ s : DbState, (assigneePairs s).Nodup →
      (assigneePairs (upsertAssignees s tid uids)).Nodup := by
  induction uids with
  | nil => intro s h; exact h
  | cons u us ih =>
    intro s h
    exact ih (upsertAssignee s tid u) (nodup_assigneePairs_upsertAssignee s tid u h)

theorem assigneePairs_update_tickets (s : DbState) (x : List Ticket) :
    assigneePairs { s with tickets := x } = assigneePairs s := rfl

/-- Every reachable post-state of `complete` is either the unchanged input
state (validation error, not-found, rollback) or the fully committed
state — never anything in between. -/
theorem complete_state_cases (s : DbState) (tid : Nat)
    (inp : MaintenanceCompleteIn) (now : Int) (failAt : Option Nat) :
    (MaintenanceService.complete s tid inp now failAt).1 = s ∨
    (MaintenanceService.complete s tid inp now failAt).1 =
      completeCommitted s tid (pyStrip inp.resolution_content)
        inp.assignee_user_ids now := by
  unfold MaintenanceService.complete
  by_cases h1 : pyStrip inp.resolution_content = ""
  · left; simp [h1]
  · by_cases h2 : inp.assignee_user_ids.isEmpty = true
    · left; simp [h1, h2]
    · by_cases h3 : failAt = some 0
      · left; simp [h1, h2, h3]
      · by_cases h4 :
          ((s.tickets.find? (fun t => t.id == tid)).map Ticket.id).getD 0 = 0
        · left; simp [h1, h2, h3, h4]
        · cases failAt with
          | none => right; simp [h1, h2, h4]
          | some k =>
            by_cases h5 : 1 ≤ k ∧ k ≤ 2 + inp.assignee_user_ids.length
            · left; simp [h1, h2, h3, h4, h5]
            · right; simp [h1, h2, h3, h4, h5]

theorem nodup_assigneePairs_complete (s : DbState) (tid : Nat)
    (inp : MaintenanceCompleteIn) (now : Int) (failAt : Option Nat)
    (h : (assigneePairs s).Nodup) :
    (assigneePairs (MaintenanceService.complete s tid inp now failAt).1).Nodup := by
  rcases complete_state_cases s tid inp now failAt with hc | hc <;> rw [hc]
  · exact h
  · unfold completeCommitted
    exact nodup_assigneePairs_upsertAssignees tid inp.assignee_user_ids _ h

/-- C6: completion is idempotent with respect to assignee duplicates —
starting from a table without duplicate (ticket, user) pairs, any two
`complete` calls (any ids, any overlapping assignee sets, any failure
injection) leave the pair table duplicate-free, and upserting a pair that
is already present is a no-op on the state, not an error. -/
theorem complete_assignee_idempotent (s : DbState)
    (hnd : (assigneePairs s).Nodup) :
    (∀ tid1 inp1 now1 f1 tid2 inp2 now2 f2,
      (assigneePairs (MaintenanceService.complete
        (MaintenanceService.complete s tid1 inp1 now1 f1).1
        tid2 inp2 now2 f2).1).Nodup) ∧
    (∀ tid uid, (tid, uid) ∈ assigneePairs s →
      upsertAssignee s tid uid = s) := by
  constructor
  · intro tid1 inp1 now1 f1 tid2 inp2 now2 f2
    exact nodup_assigneePairs_complete _ _ _ _ _
      (nodup_assigneePairs_complete _ _ _ _ _ hnd)
  · intro tid uid h
    exact upsertAssignee_of_mem s tid uid h

def egDbPair : DbState :=
  { tickets := [egTicket]
    assignees := [⟨1, 1, 7⟩]
    users := [⟨7, "Kim"⟩]
    clients := [1]
    nextId := 2
    nextAssigneeId := 2 }

/-- Witness for C6: on a table already holding (ticket 1, user 7),
re-upserting that pair returns the state unchanged. -/
theorem complete_assignee_idempotent_witness :
    upsertAssignee egDbPair 1 7 = egDbPair :=
  (complete_assignee_idempotent egDbPair (by decide)).2 1 7 (by decide)

/-! ### Successful completion and rollback (claim C3) -/

theorem upsertAssignee_tickets (s : DbState) (tid uid : Nat) :
    (upsertAssignee s tid uid).tickets = s.tickets := by
  unfold upsertAssignee
  split <;> rfl

theorem upsertAssignees_tickets (tid : Nat) (uids : List Nat) :
    ∀ s : DbState, (upsertAssignees s tid uids).tickets = s.tickets := by
  induction uids with
  | nil => intro s; rfl
  | cons u us ih =>
    intro s
    rw [show upsertAssignees s tid (u :: us) =
      upsertAssignees (upsertAssignee s tid u) tid us from rfl, ih,
      upsertAssignee_tickets]

theorem pair_mem_upsertAssignee (s : DbState) (tid uid : Nat) :
    (tid, uid) ∈ assigneePairs (upsertAssignee s tid uid) := by
  by_cases h : (tid, uid) ∈ assigneePairs s
  · rw [upsertAssignee_of_mem s tid uid h]; exact h
  · rw [assigneePairs_upsertAssignee, if_neg h]; simp

theorem pair_mem_upsertAssignee_mono (s : DbState) (tid uid : Nat)
    (p : Nat × Nat) (h : p ∈ assigneePairs s) :
    p ∈ assigneePairs (upsertAssignee s tid uid) := by
  rw [assigneePairs_upsertAssignee]
  split
  · exact h
  · exact List.mem_append_left _ h

theorem pair_mem_upsertAssignees_mono (tid : Nat) (uids : List Nat) :
    ∀ (s : DbState) (p : Nat × Nat), p ∈ assigneePairs s →
      p ∈ assigneePairs (upsertAssignees s tid uids) := by
  induction uids with
  | nil => intro s p h; exact h
  | cons u us ih =>
    intro s p h
    exact ih (upsertAssignee s tid u) p (pair_mem_upsertAssignee_mono s tid u p h)

theorem pair_mem_upsertAssignees (tid : Nat) (uids : List Nat) :
    ∀ s : DbState, ∀ uid ∈ uids,
      (tid, uid) ∈ assigneePairs (upsertAssignees s tid uids) := by
  induction uids with
  | nil => intro s uid h; cases h
  | cons u us ih =>
    intro s uid h
    rcases List.mem_cons.mp h with rfl | h'
    · exact pair_mem_upsertAssignees_mono tid us (upsertAssignee s tid uid)
        (tid, uid) (pair_mem_upsertAssignee s tid uid)
    · exact ih (upsertAssignee s tid u) uid h'

theorem pair_src_upsertAssignee (s : DbState) (tid uid : Nat) (p : Nat × Nat)
    (h : p ∈ assigneePairs (upsertAssignee s tid uid)) :
    p ∈ assigneePairs s ∨ p = (tid, uid) := by
  rw [assigneePairs_upsertAssignee] at h
  revert h
  split
  · exact fun h => Or.inl h
  · intro h
    rcases List.mem_append.mp h with h' | h'
    · exact Or.inl h'
    · simp only [List.mem_singleton] at h'
      exact Or.inr h'

theorem pair_src_upsertAssignees (tid : Nat) (uids : List Nat) :
    ∀ (s : DbState) (p : Nat × Nat),
      p ∈ assigneePairs (upsertAssignees s tid uids) →
      p ∈ assigneePairs s ∨ (p.1 = tid ∧ p.2 ∈ uids) := by
  induction uids with
  | nil => intro s p h; exact Or.inl h
  | cons u us ih =>
    intro s p h
    rcases ih (upsertAssignee s tid u) p h with h' | h'
    · rcases pair_src_upsertAssignee s tid u p h' with h'' | h''
      · exact Or.inl h''
      · subst h''
        exact Or.inr ⟨rfl, List.mem_cons_self _ _⟩
    · exact Or.inr ⟨h'.1, List.mem_cons_of_mem _ h'.2⟩

/-- C3 (amended): for every existing ticket whose id is not 0 (ids come
from a sequence starting at 1; 0 would be mistaken for "absent" by the
Python truthiness test on the existence SELECT) and valid input, the
normal run of `complete` commits exactly the fully updated state: the
ticket row gets status `CLOSED`, `closed_at` and `updated_at` set to now
and the trimmed resolution text stored; every requested (ticket, user)
pair is present afterwards and nothing but those pairs is added; and for
every injected failure point the post-state is either the untouched input
state or the fully committed state — partial completion is never
observable. -/
theorem complete_success_and_rollback (s : DbState) (tid : Nat)
    (inp : MaintenanceCompleteIn) (now : Int)
    (hres : pyStrip inp.resolution_content ≠ "")
    (hids : inp.assignee_user_ids ≠ [])
    (t : Ticket) (hfind : s.tickets.find? (fun t' => t'.id == tid) = some t)
    (h0 : tid ≠ 0) :
    (MaintenanceService.complete s tid inp now none =
      (completeCommitted s tid (pyStrip inp.resolution_content)
         inp.assignee_user_ids now,
       .ok (MaintenanceService.get_detail
         (completeCommitted s tid (pyStrip inp.resolution_content)
           inp.assignee_user_ids now) tid))) ∧
    (∀ t' ∈ (completeCommitted s tid (pyStrip inp.resolution_content)
        inp.assignee_user_ids now).tickets, t'.id = tid →
      t'.status = .CLOSED ∧ t'.closed_at = some now ∧ t'.updated_at = now ∧
      t'.resolution_content = some (pyStrip inp.resolution_content)) ∧
    (∀ uid ∈ inp.assignee_user_ids,
      (tid, uid) ∈ assigneePairs (completeCommitted s tid
        (pyStrip inp.resolution_content) inp.assignee_user_ids now)) ∧
    (∀ p ∈ assigneePairs (completeCommitted s tid
        (pyStrip inp.resolution_content) inp.assignee_user_ids now),
      p ∈ assigneePairs s ∨ (p.1 = tid ∧ p.2 ∈ inp.assignee_user_ids)) ∧
    (∀ failAt, (MaintenanceService.complete s tid inp now failAt).1 = s ∨
      (MaintenanceService.complete s tid inp now failAt).1 =
        completeCommitted s tid (pyStrip inp.resolution_content)
          inp.assignee_user_ids now) := by
  have htideq : t.id = tid := by
    simpa using List.find?_some hfind
  have hne : inp.assignee_user_ids.isEmpty = false := by
    cases hl : inp.assignee_user_ids with
    | nil => exact absurd hl hids
    | cons a l => rfl
  have htick : (completeCommitted s tid (pyStrip inp.resolution_content)
      inp.assignee_user_ids now).tickets =
      s.tickets.map (fun t0 => if t0.id == tid then
        closeTicket t0 now (pyStrip inp.resolution_content) else t0) := by
    simp only [completeCommitted]
    rw [upsertAssignees_tickets]
  refine ⟨?_, fun t' ht' hid' => ?_, ?_, ?_, complete_state_cases s tid inp now⟩
  · simp [MaintenanceService.complete, hres, hne, hfind, htideq, h0]
  · rw [htick] at ht'
    obtain ⟨t0, ht0, heq⟩ := List.mem_map.mp ht'
    by_cases hc : t0.id = tid
    · rw [if_pos (by simpa using hc)] at heq
      subst heq
      exact ⟨rfl, rfl, rfl, rfl⟩
    · rw [if_neg (by simpa using hc)] at heq
      subst heq
      exact absurd hid' hc
  · intro uid hu
    simp only [completeCommitted]
    exact pair_mem_upsertAssignees tid inp.assignee_user_ids _ uid hu
  · intro p hp
    simp only [completeCommitted] at hp
    rcases pair_src_upsertAssignees tid inp.assignee_user_ids _ p hp with h' | h'
    · exact Or.inl h'
    · exact Or.inr h' 

/-- Witness for C3: completing ticket 1 of the sample state with trimmed
resolution "완료" and assignee 7 commits the updated state and answers ok. -/
theorem complete_success_witness :
    MaintenanceService.complete egDb 1 ⟨" 완료 ", [7]⟩ 1736000000 none =
      (completeCommitted egDb 1 (pyStrip (" 완료 ")) [7] 1736000000,
       .ok (MaintenanceService.get_detail
         (completeCommitted egDb 1 (pyStrip (" 완료 ")) [7] 1736000000) 1)) :=
  (complete_success_and_rollback egDb 1 ⟨" 완료 ", [7]⟩ 1736000000
    (by decide) (by decide) egTicket (by decide) (by decide)).1

def zeroTicket : Ticket := { egTicket with id := 0 }

def zeroDb : DbState :=
  { tickets := [zeroTicket]
    assignees := []
    users := []
    clients := [1]
    nextId := 1
    nextAssigneeId := 1 }

/-- Counterexample to C3 as stated: a ticket whose id is 0 exists and the
input is valid (non-blank resolution, one assignee), yet `complete`
answers not-found and writes nothing — `if not exists:` is satisfied by
the integer 0 returned by the existence SELECT. -/
theorem complete_success_counterexample :
    MaintenanceService.complete zeroDb 0 ⟨"done", [7]⟩ 100 none =
      (zeroDb, .notFound) ∧
    zeroTicket ∈ zeroDb.tickets ∧ zeroTicket.status = .OPEN ∧
    pyStrip ("done") ≠ "" := by decide

/-! ### Year-interval filtering (claim C5) -/

theorem mem_queryListJoin (s : DbState) (year : Int) (tab : String)
    (qn : Option String) (r : ListRow) :
    r ∈ queryListJoin s year tab qn ↔
      ∃ t, t ∈ s.tickets ∧ joinPred s year tab qn t = true ∧
        r = rowOfJoin s t := by
  unfold queryListJoin
  rw [mem_sortByOrd, List.mem_map]
  constructor
  · rintro ⟨t, htf, heq⟩
    obtain ⟨ht, hp⟩ := List.mem_filter.mp htf
    exact ⟨t, ht, hp, heq.symm⟩
  · rintro ⟨t, ht, hp, heq⟩
    exact ⟨t, List.mem_filter.mpr ⟨ht, hp⟩, heq.symm⟩

theorem mem_queryListNoJoin (s : DbState) (year : Int) (tab : String)
    (qn : Option String) (r : ListRow) :
    r ∈ queryListNoJoin s year tab qn ↔
      ∃ t, t ∈ s.tickets ∧ noJoinPred year tab qn t = true ∧
        r = rowOfNoJoin t := by
  unfold queryListNoJoin
  rw [mem_sortByOrd, List.mem_map]
  constructor
  · rintro ⟨t, htf, heq⟩
    obtain ⟨ht, hp⟩ := List.mem_filter.mp htf
    exact ⟨t, ht, hp, heq.symm⟩
  · rintro ⟨t, ht, hp, heq⟩
    exact ⟨t, List.mem_filter.mpr ⟨ht, hp⟩, heq.symm⟩

theorem joinPred_bounds (s : DbState) (year : Int) (tab : String)
    (qn : Option String) (t : Ticket) (hp : joinPred s year tab qn t = true) :
    kstYearStartSec year ≤ t.requested_at ∧
      t.requested_at < kstYearStartSec (year + 1) := by
  simp only [joinPred, _year_range_kst_dt, Bool.and_eq_true,
    decide_eq_true_eq] at hp
  exact ⟨hp.1.1.1, hp.1.1.2⟩

theorem noJoinPred_bounds (year : Int) (tab : String)
    (qn : Option String) (t : Ticket) (hp : noJoinPred year tab qn t = true) :
    kstYearStartSec year ≤ t.requested_at ∧
      t.requested_at < kstYearStartSec (year + 1) := by
  simp only [noJoinPred, _year_range_kst_dt, Bool.and_eq_true,
    decide_eq_true_eq] at hp
  exact ⟨hp.1.1.1, hp.1.1.2⟩

/-- C5: for every year, both list queries return only rows whose
`requested_at` lies in the half-open interval from Jan 1 00:00 of the
year to Jan 1 00:00 of the next year, both taken in the fixed UTC+9
offset; a ticket timestamped exactly at the upper bound is excluded. -/
theorem list_year_bounds (s : DbState) (year : Int) (tab : String)
    (qn : Option String) (r : ListRow) :
    (r ∈ queryListJoin s year tab qn →
      kstYearStartSec year ≤ r.requested_at ∧
        r.requested_at < kstYearStartSec (year + 1)) ∧
    (r ∈ queryListNoJoin s year tab qn →
      kstYearStartSec year ≤ r.requested_at ∧
        r.requested_at < kstYearStartSec (year + 1)) ∧
    (∀ t ∈ s.tickets, t.requested_at = kstYearStartSec (year + 1) →
      rowOfJoin s t ∉ queryListJoin s year tab qn) := by
  refine ⟨fun h => ?_, fun h => ?_, fun t ht heq hmem => ?_⟩
  · obtain ⟨t, ht, hp, heq⟩ := (mem_queryListJoin s year tab qn r).mp h
    subst heq
    exact joinPred_bounds s year tab qn t hp
  · obtain ⟨t, ht, hp, heq⟩ := (mem_queryListNoJoin s year tab qn r).mp h
    subst heq
    exact noJoinPred_bounds year tab qn t hp
  · obtain ⟨t', ht', hp, heq⟩ := (mem_queryListJoin s year tab qn _).mp hmem
    have hb := joinPred_bounds s year tab qn t' hp
    have : (rowOfJoin s t).requested_at = (rowOfJoin s t').requested_at := by
      rw [heq]
    simp only [rowOfJoin] at this
    omega

/-- Witness for C5: the sample ticket sits at exactly Jan 1 2025 00:00
UTC+9, so it is listed for year 2025 and its timestamp obeys the bounds. -/
theorem list_year_bounds_witness :
    kstYearStartSec 2025 ≤ (rowOfJoin egDb egTicket).requested_at ∧
      (rowOfJoin egDb egTicket).requested_at < kstYearStartSec (2025 + 1) :=
  (list_year_bounds egDb 2025 ("in_progress") none (rowOfJoin egDb egTicket)).1
    (by decide)

/-! ### Ticket-number generation (claim C8) -/

theorem get_detail_isSome_of_has (s : DbState) (tid : Nat)
    (h : ∃ t ∈ s.tickets, t.id = tid) :
    (MaintenanceService.get_detail s tid).isSome = true := by
  obtain ⟨t, ht, htid⟩ := h
  cases hf : s.tickets.find? (fun t' => t'.id == tid) with
  | none =>
    exact absurd (by simpa using htid)
      (by simpa using List.find?_eq_none.mp hf t ht)
  | some x =>
    unfold MaintenanceService.get_detail
    rw [hf]
    rfl

/-- C8 (amended): a successful insert appends exactly one ticket whose id
is the sequence value reserved before the insert, whose `ticket_no` is
`"MT-" ++ to_char-YYYY of the KST creation year ++ "-" ++ lpad(id, 6,
'0')` (lpad pads short ids with zeros and truncates longer ones to six
characters), advances the sequence, and answers the detail fetch of the
new id, which succeeds. -/
theorem create_ticket_no_format (s : DbState) (uid? : Option Nat)
    (payload : MaintenanceCreateIn) (now : Int)
    (htitle : pyStrip payload.title ≠ "")
    (hreq : pyStrip payload.request_content ≠ "")
    (hcli : s.clients ≠ []) :
    ∃ t : Ticket,
      (MaintenanceService.create s uid? payload now).1.tickets =
        s.tickets ++ [t] ∧
      t.id = s.nextId ∧
      t.ticket_no = "MT-" ++ pgToCharYYYY (kstYearOf now) ++ "-" ++
        pgLpad (toString s.nextId) 6 '0' ∧
      t.status = .OPEN ∧ t.closed_at = none ∧
      (MaintenanceService.create s uid? payload now).1.nextId =
        s.nextId + 1 ∧
      (MaintenanceService.create s uid? payload now).2 =
        .ok (MaintenanceService.get_detail
          (MaintenanceService.create s uid? payload now).1 s.nextId) ∧
      (MaintenanceService.get_detail
        (MaintenanceService.create s uid? payload now).1 s.nextId).isSome =
        true := by
  unfold MaintenanceService.create
  rw [if_neg htitle, if_neg hreq]
  cases hcl : s.clients with
  | nil => exact absurd hcl hcli
  | cons c cs =>
    refine ⟨_, rfl, rfl, rfl, rfl, rfl, rfl, rfl, ?_⟩
    exact get_detail_isSome_of_has _ _
      ⟨_, List.mem_append_right s.tickets (List.mem_cons_self _ _), rfl⟩

def bigDb : DbState :=
  { tickets := []
    assignees := []
    users := []
    clients := [1]
    nextId := 1234567
    nextAssigneeId := 1 }

/-- Counterexample to C8 as stated: for reserved id 1234567 the stored
ticket number is `MT-2025-123456` — PostgreSQL `lpad` truncates the id to
six characters — while "the id zero-padded to 6 digits" would give
`MT-2025-1234567`. -/
theorem create_ticket_no_counterexample :
    (MaintenanceService.create bigDb none ⟨"T", "n", "o", "p", "c"⟩
        1736000000).1.tickets.map Ticket.ticket_no = ["MT-2025-123456"] ∧
    kstYearOf 1736000000 = 2025 ∧
    ("MT-2025-123456" : String) ≠
      "MT-" ++ pgToCharYYYY 2025 ++ "-" ++ specZeroPad6 1234567 := by
  decide

/-- Witness for C8: on the sample state (next id 2, clients nonempty) the
insert stores `MT-2025-000002` and the immediate detail fetch succeeds. -/
theorem create_ticket_no_format_witness :
    ∃ t : Ticket,
      (MaintenanceService.create egDb (some 7)
        ⟨"서버 점검", "홍길동", "IT팀", "010-0000-0000", "정기 점검 요청"⟩
        1736000000).1.tickets = egDb.tickets ++ [t] ∧
      t.id = egDb.nextId ∧
      t.ticket_no = "MT-" ++ pgToCharYYYY (kstYearOf 1736000000) ++ "-" ++
        pgLpad (toString egDb.nextId) 6 '0' ∧
      t.status = .OPEN ∧ t.closed_at = none ∧
      (MaintenanceService.create egDb (some 7)
        ⟨"서버 점검", "홍길동", "IT팀", "010-0000-0000", "정기 점검 요청"⟩
        1736000000).1.nextId = egDb.nextId + 1 ∧
      (MaintenanceService.create egDb (some 7)
        ⟨"서버 점검", "홍길동", "IT팀", "010-0000-0000", "정기 점검 요청"⟩
        1736000000).2 =
        .ok (MaintenanceService.get_detail
          (MaintenanceService.create egDb (some 7)
            ⟨"서버 점검", "홍길동", "IT팀", "010-0000-0000", "정기 점검 요청"⟩
            1736000000).1 egDb.nextId) ∧
      (MaintenanceService.get_detail
        (MaintenanceService.create egDb (some 7)
          ⟨"서버 점검", "홍길동", "IT팀", "010-0000-0000", "정기 점검 요청"⟩
          1736000000).1 egDb.nextId).isSome = true :=
  create_ticket_no_format egDb (some 7)
    ⟨"서버 점검", "홍길동", "IT팀", "010-0000-0000", "정기 점검 요청"⟩
    1736000000 (by decide) (by decide) (by decide)

/-! ### Search-text semantics (claim C9) -/

/-- The search text contains none of the LIKE metacharacters. -/
def noMeta (l : List Char) : Bool :=
  l.all (fun c => !(c == '%') && !(c == '_') && !(c == '\\'))

theorem noMeta_iff (l : List Char) :
    noMeta l = true ↔ ∀ c ∈ l, c ≠ '%' ∧ c ≠ '_' ∧ c ≠ '\\' := by
  simp [noMeta, List.all_eq_true, and_assoc]

theorem charOfNat_toNat (n : Nat) (h : n < 55296) :
    (Char.ofNat n).toNat = n := by
  simp [Char.ofNat, Char.toNat]
  split
  · rfl
  · exfalso
    apply ‹¬ _›
    left
    exact h

theorem noMeta_lowerChar (c : Char) (h1 : c ≠ '%') (h2 : c ≠ '_')
    (h3 : c ≠ '\\') :
    lowerChar c ≠ '%' ∧ lowerChar c ≠ '_' ∧ lowerChar c ≠ '\\' := by
  unfold lowerChar
  split
  · rename_i hc
    have hv : (Char.ofNat (c.toNat + 32)).toNat = c.toNat + 32 :=
      charOfNat_toNat _ (by omega)
    refine ⟨fun he => ?_, fun he => ?_, fun he => ?_⟩
    · rw [he, show ('%').toNat = 37 from rfl] at hv; omega
    · rw [he, show ('_').toNat = 95 from rfl] at hv; omega
    · rw [he, show ('\\').toNat = 92 from rfl] at hv; omega
  · exact ⟨h1, h2, h3⟩

theorem noMeta_lowerList (l : List Char) (h : noMeta l = true) :
    noMeta (lowerList l) = true := by
  rw [noMeta_iff] at h ⊢
  intro c hc
  obtain ⟨c0, hc0, rfl⟩ := List.mem_map.mp hc
  obtain ⟨a1, a2, a3⟩ := h c0 hc0
  exact noMeta_lowerChar c0 a1 a2 a3

theorem likeMatch_pct_nil (s : List Char) : likeMatch ['%'] s = true :=
  likeMatch_pct_total [] rfl s

theorem likeMatch_lit_pct (l : List Char)
    (hm : ∀ c ∈ l, c ≠ '%' ∧ c ≠ '_' ∧ c ≠ '\\') :
    ∀ s, likeMatch (l ++ ['%']) s = beginsWith l s := by
  induction l with
  | nil =>
    intro s
    simpa [beginsWith] using likeMatch_pct_nil s
  | cons c l' ih =>
    intro s
    obtain ⟨h1, h2, h3⟩ := hm c (List.mem_cons_self _ _)
    have hm' : ∀ c' ∈ l', c' ≠ '%' ∧ c' ≠ '_' ∧ c' ≠ '\\' :=
      fun c' hc' => hm c' (List.mem_cons_of_mem _ hc')
    cases s with
    | nil => simp [likeMatch, h1, h2, h3, beginsWith]
    | cons d s' =>
      have he : likeMatch (c :: (l' ++ ['%'])) (d :: s') =
          ((c == d) && likeMatch (l' ++ ['%']) s') := by
        simp [likeMatch, h1, h2, h3]
      rw [List.cons_append, he, ih hm' s']
      rfl

theorem likeMatchSfx_beginsWith (l : List Char) :
    ∀ s, likeMatchSfx (beginsWith l) s = substrOf l s := by
  intro s
  induction s with
  | nil => rfl
  | cons d s' ih =>
    show (beginsWith l (d :: s') || likeMatchSfx (beginsWith l) s') =
      substrOf l (d :: s')
    rw [ih]
    rfl

theorem likeMatch_pct_lit_pct (l : List Char)
    (hm : ∀ c ∈ l, c ≠ '%' ∧ c ≠ '_' ∧ c ≠ '\\') (s : List Char) :
    likeMatch ('%' :: (l ++ ['%'])) s = substrOf l s :=
  calc likeMatch ('%' :: (l ++ ['%'])) s
      = likeMatchSfx (fun s' => likeMatch (l ++ ['%']) s') s :=
        likeMatch_pct _ s
    _ = likeMatchSfx (beginsWith l) s :=
        likeMatchSfx_congr (fun s' => likeMatch_lit_pct l hm s') s
    _ = substrOf l s := likeMatchSfx_beginsWith l s

/-- For metacharacter-free search text, the ILIKE pattern `%q%` is exactly
case-insensitive substring containment. -/
theorem ilike_eq_containsCI (q f : String) (h : noMeta q.toList = true) :
    ilike f (qLike q) = containsCI q f := by
  unfold ilike containsCI
  rw [lowerList_qLike]
  exact likeMatch_pct_lit_pct (lowerList q.toList)
    ((noMeta_iff _).mp (noMeta_lowerList q.toList h)) (lowerList f.toList)

theorem joinPred_iff (s : DbState) (year : Int) (tab : String)
    (qn : Option String) (t : Ticket) :
    joinPred s year tab qn t = true ↔
      (kstYearStartSec year ≤ t.requested_at ∧
       t.requested_at < kstYearStartSec (year + 1) ∧
       t.status ∈ statusesFor tab ∧
       (∀ q, qn = some q →
         (ilike t.title (qLike q) = true ∨
          ilike (coalesce t.requester_org) (qLike q) = true ∨
          ilike (createdByName s t) (qLike q) = true))) := by
  cases qn with
  | none => simp [joinPred, _year_range_kst_dt, and_assoc]
  | some q => simp [joinPred, _year_range_kst_dt, and_assoc, or_assoc]

/-- C9 (amended): the search text is trimmed and an empty-after-trim text
means no filter; the joined query's rows without a filter are exactly the
year/status-eligible tickets; with a metacharacter-free search text a row
is returned exactly when the ticket is year/status-eligible and at least
one of title, requester organisation and creator display name contains
the text as a case-insensitive substring.  (With metacharacters the match
is the raw ILIKE pattern `%text%`; see the counterexample.) -/
theorem list_search_semantics :
    (∀ q : String, _normalize_q (some q) =
      (if pyStrip q = "" then none else some (pyStrip q))) ∧
    (∀ (s : DbState) (year : Int) (tab : String) (r : ListRow),
      r ∈ queryListJoin s year tab none ↔
        ∃ t, t ∈ s.tickets ∧
          kstYearStartSec year ≤ t.requested_at ∧
          t.requested_at < kstYearStartSec (year + 1) ∧
          t.status ∈ statusesFor tab ∧ r = rowOfJoin s t) ∧
    (∀ (s : DbState) (year : Int) (tab : String) (qs : String)
      (r : ListRow), noMeta qs.toList = true →
      (r ∈ queryListJoin s year tab (some qs) ↔
        ∃ t, t ∈ s.tickets ∧
          kstYearStartSec year ≤ t.requested_at ∧
          t.requested_at < kstYearStartSec (year + 1) ∧
          t.status ∈ statusesFor tab ∧
          (containsCI qs t.title = true ∨
           containsCI qs (coalesce t.requester_org) = true ∨
           containsCI qs (createdByName s t) = true) ∧
          r = rowOfJoin s t)) := by
  refine ⟨fun q => rfl, fun s year tab r => ?_, fun s year tab qs r hq => ?_⟩
  · rw [mem_queryListJoin]
    constructor
    · rintro ⟨t, ht, hp, heq⟩
      obtain ⟨b1, b2, b3, -⟩ := (joinPred_iff s year tab none t).mp hp
      exact ⟨t, ht, b1, b2, b3, heq⟩
    · rintro ⟨t, ht, b1, b2, b3, heq⟩
      exact ⟨t, ht, (joinPred_iff s year tab none t).mpr
        ⟨b1, b2, b3, fun q hq' => by cases hq'⟩, heq⟩
  · rw [mem_queryListJoin]
    constructor
    · rintro ⟨t, ht, hp, heq⟩
      obtain ⟨b1, b2, b3, b4⟩ := (joinPred_iff s year tab (some qs) t).mp hp
      have hd := b4 qs rfl
      rw [ilike_eq_containsCI qs t.title hq,
        ilike_eq_containsCI qs (coalesce t.requester_org) hq,
        ilike_eq_containsCI qs (createdByName s t) hq] at hd
      exact ⟨t, ht, b1, b2, b3, hd, heq⟩
    · rintro ⟨t, ht, b1, b2, b3, b4, heq⟩
      refine ⟨t, ht, (joinPred_iff s year tab (some qs) t).mpr
        ⟨b1, b2, b3, fun q hq' => ?_⟩, heq⟩
      cases hq'
      rw [ilike_eq_containsCI qs t.title hq,
        ilike_eq_containsCI qs (coalesce t.requester_org) hq,
        ilike_eq_containsCI qs (createdByName s t) hq]
      exact b4

def csTicket : Ticket :=
  { egTicket with
    title := "abc"
    requester_org := some ("zz")
    created_by_user_id := none }

def csDb : DbState :=
  { tickets := [csTicket]
    assignees := []
    users := []
    clients := [1]
    nextId := 2
    nextAssigneeId := 1 }

/-- Counterexample to C9 as stated: search text `a_c` (after trim)
returns the row with title `abc` — the unescaped `_` of the ILIKE pattern
matches the `b` — although none of the three fields contains `a_c` as a
substring, case-ignored. -/
theorem list_search_counterexample :
    rowOfJoin csDb csTicket ∈
      queryListJoin csDb 2025 ("in_progress") (_normalize_q (some ("a_c"))) ∧
    containsCI ("a_c") csTicket.title = false ∧
    containsCI ("a_c") (coalesce csTicket.requester_org) = false ∧
    containsCI ("a_c") (createdByName csDb csTicket) = false := by
  decide

/-- Witness for C9: metacharacter-free search text "server" returns the
sample row because its title "Server check" contains it, ignoring case. -/
theorem list_search_semantics_witness :
    rowOfJoin egDb egTicket ∈
      queryListJoin egDb 2025 ("in_progress") (some ("server")) :=
  (list_search_semantics.2.2 egDb 2025 ("in_progress") "server"
      (rowOfJoin egDb egTicket) (by decide)).mpr
    ⟨egTicket, by decide, by decide, by decide, by decide,
     Or.inl (by decide), rfl⟩
